import Mathlib

/-
Verification of the WasmEdge form checker (src/lib/validator/formchecker.cpp).

This file gives a shallow embedding of the checker into Lean.  The value-type
model, the module environment, the operand and control stacks, the local-init
tracker and the instruction checker are translated from the C++ source; the
stateful C++ member functions become explicit state-passing functions on the
FormChecker record.  Each function returns a pair of a result (Except value)
and the updated state, so that in-place mutations that happen before a failure
(for example branch-metadata writes into instructions) are still visible on the
error path, exactly as in the C++ code.

Modelling conventions:
  - the top of a stack (operand stack, control stack) is the HEAD of the Lean
    list; the C++ vectors keep the top at the back;
  - instruction pointers become indices into the instruction list carried in
    the state; pointer differences become index differences;
  - uint32_t / size_t arithmetic is modelled with Nat plus explicit reductions
    modulo 2 ^ 32 / 2 ^ 64 where C++ would truncate or wrap;
  - the C++ VType (a value type or the polymorphic Unknown marker used under
    unreachable code) becomes Option ValType with none as Unknown.
-/

namespace WasmEdgeFC

/-- Numeric / vector type codes (the non-reference value types). -/
inductive NumCode where
  | I32
  | I64
  | F32
  | F64
  | V128
deriving DecidableEq

/-- Heap types of reference types: the abstract codes handled by the checker
(funcref, externref) or a concrete index into the module's function-type
table. -/
inductive HeapType where
  | FuncRef
  | ExternRef
  | TypeIndex (i : Nat)
deriving DecidableEq

/-- A value type: one of the numeric / vector codes, or a reference type
carrying nullability and a heap type. -/
inductive ValType where
  | num (c : NumCode)
  | ref (nullable : Bool) (h : HeapType)
deriving DecidableEq

/-- Defaultability of a value type: all numeric and vector types and nullable
references are defaultable, non-nullable references are not (used by addLocal;
the predicate itself lives in the common ValType class of the repository and
is fixed by the spec's glossary). -/
def ValType.isDefaultable : ValType → Bool
  | .num _ => true
  | .ref nullable _ => nullable

/-- Checker stack entry: a concrete value type or the polymorphic Unknown
marker (C++ VType; Unknown is the empty optional). -/
abbrev VType := Option ValType

/-- The polymorphic Unknown entry pushed and consumed under unreachable
frames. -/
def unreachableVType : VType := none

/-- Global mutability. -/
inductive ValMut where
  | Const
  | Var
deriving DecidableEq

/-- A function type: parameter types and result types. -/
abbrev FuncType := List ValType × List ValType

/-- The classified error codes the checker can surface. -/
inductive ErrCode where
  | InvalidFuncTypeIdx
  | InvalidFuncIdx
  | InvalidTableIdx
  | InvalidMemoryIdx
  | InvalidGlobalIdx
  | InvalidLocalIdx
  | InvalidLabelIdx
  | InvalidDataIdx
  | InvalidElemIdx
  | InvalidLaneIdx
  | InvalidRefIdx
  | InvalidAlignment
  | InvalidResultArity
  | InvalidBrRefType
  | InvalidUninitLocal
  | ImmutableGlobal
  | TypeCheckFailed
deriving DecidableEq

/-- The opcodes modelled here (the subset of the C++ dispatch needed for the
properties under study; the omitted opcodes follow the same helper-based
patterns). -/
inductive OpCode where
  | Unreachable
  | Nop
  | Block
  | Loop
  | If
  | Else
  | End
  | Br
  | Br_if
  | Call
  | Drop
  | Local__get
  | Local__set
  | Local__tee
  | I32__const
  | I32__add
  | I32__load
  | I64__load
  | I32__store
  | V128__load8_lane
  | V128__const
  | I8x16__shuffle
deriving DecidableEq

/-- Block types: empty, a single value type, or a function-type index. -/
inductive BlockType where
  | empty
  | valType (v : ValType)
  | typeIndex (n : Nat)
deriving DecidableEq

/-- A decoded instruction together with the mutable branch-metadata fields the
checker writes back (StackEraseBegin, StackEraseEnd, PCOffset for branches and
StackOffset for local accesses).  The immediates (block type, indices, align,
lane, the 128-bit constant) are those exposed by the AST instruction class. -/
structure Instruction where
  op : OpCode
  offset : Nat := 0
  targetIndex : Nat := 0
  sourceIndex : Nat := 0
  jumpTargetIndex : Nat := 0
  blockType : BlockType := .empty
  jumpEnd : Nat := 0
  jumpElse : Nat := 0
  memAlign : Nat := 0
  memLane : Nat := 0
  num : Nat := 0
  stackEraseBegin : Nat := 0
  stackEraseEnd : Nat := 0
  pcOffset : Int := 0
  stackOffset : Nat := 0

instance : Inhabited Instruction := ⟨{ op := .Nop }⟩

/-- A local declaration: its value type and its initialization status. -/
structure LocalType where
  VType : ValType
  IsInit : Bool

instance : Inhabited LocalType := ⟨⟨.num .I32, false⟩⟩

/-- A control frame: block signature, jump anchor (as an instruction index),
the operand-stack height and local-init watermark at entry, the originating
opcode and the unreachability flag. -/
structure CtrlFrame where
  StartTypes : List ValType
  EndTypes : List ValType
  Jump : Nat
  Height : Nat
  InitedLocal : Nat
  Code : OpCode
  IsUnreachable : Bool

instance : Inhabited CtrlFrame := ⟨⟨[], [], 0, 0, 0, .Block, false⟩⟩

/-- The checker state: the module environment populated by the add* calls and
the per-body scratch state (locals, local-init log, returns, operand stack,
control stack), plus the instruction view being validated (carried in the
state because the checker mutates instruction metadata in place). -/
structure FormChecker where
  Types : List FuncType := []
  Funcs : List Nat := []
  Tables : List ValType := []
  Mems : Nat := 0
  Globals : List (ValType × ValMut) := []
  Datas : List Nat := []
  Elems : List ValType := []
  Refs : List Nat := []
  NumImportFuncs : Nat := 0
  NumImportGlobals : Nat := 0
  Locals : List LocalType := []
  LocalInits : List Nat := []
  Returns : List ValType := []
  ValStack : List VType := []
  CtrlStack : List CtrlFrame := []
  Instrs : List Instruction := []

instance : Inhabited FormChecker := ⟨{}⟩

/-- Truncation to uint32 (static casts to uint32_t in the C++ code). -/
def u32 (n : Nat) : Nat := n % 2 ^ 32

/-- size_t subtraction: wraps modulo 2 ^ 64 on underflow. -/
def sizeSub (a b : Nat) : Nat := (a + 2 ^ 64 - b) % 2 ^ 64

/-- A signed 32-bit cast of an integer (static_cast of a pointer difference
to int32_t): reduce into the interval from -2 ^ 31 to 2 ^ 31 - 1. -/
def toInt32 (x : Int) : Int := (x + 2 ^ 31) % 2 ^ 32 - 2 ^ 31

/-- FormChecker::reset: clear the per-body scratch state (operand stack,
control stack, locals, returns) and, when CleanGlobal is set, also the
module-level environment.  Note the C++ code does not clear LocalInits. -/
def reset (CleanGlobal : Bool) (st : FormChecker) : FormChecker :=
  let st1 := { st with ValStack := [], CtrlStack := [], Locals := [], Returns := [] }
  if CleanGlobal then
    { st1 with Types := [], Funcs := [], Tables := [], Mems := 0, Globals := [],
               Datas := [], Elems := [], Refs := [], NumImportFuncs := 0,
               NumImportGlobals := 0 }
  else st1

/-- FormChecker::addType: append a function type to the type list. -/
def addType (ft : FuncType) (st : FormChecker) : FormChecker :=
  { st with Types := st.Types ++ [ft] }

/-- FormChecker::addFunc: append the type index to the function list only when
it is in range of the type list; count an import in either case. -/
def addFunc (TypeIdx : Nat) (IsImport : Bool) (st : FormChecker) : FormChecker :=
  let st1 := if st.Types.length > TypeIdx then { st with Funcs := st.Funcs ++ [TypeIdx] } else st
  if IsImport then { st1 with NumImportFuncs := st1.NumImportFuncs + 1 } else st1

/-- FormChecker::addTable: record the table's reference type. -/
def addTable (RefT : ValType) (st : FormChecker) : FormChecker :=
  { st with Tables := st.Tables ++ [RefT] }

/-- FormChecker::addMemory: count a memory. -/
def addMemory (st : FormChecker) : FormChecker :=
  { st with Mems := st.Mems + 1 }

/-- FormChecker::addGlobal: record the global's type and mutability; count
an import when asked. -/
def addGlobal (G : ValType × ValMut) (IsImport : Bool) (st : FormChecker) : FormChecker :=
  let st1 := { st with Globals := st.Globals ++ [G] }
  if IsImport then { st1 with NumImportGlobals := st1.NumImportGlobals + 1 } else st1

/-- FormChecker::addData: record a data segment as an opaque index. -/
def addData (st : FormChecker) : FormChecker :=
  { st with Datas := st.Datas ++ [st.Datas.length] }

/-- FormChecker::addElem: record the element segment's reference type. -/
def addElem (RefT : ValType) (st : FormChecker) : FormChecker :=
  { st with Elems := st.Elems ++ [RefT] }

/-- FormChecker::addRef: insert a function index into the declared-refs set. -/
def addRef (FuncIdx : Nat) (st : FormChecker) : FormChecker :=
  if FuncIdx ∈ st.Refs then st else { st with Refs := FuncIdx :: st.Refs }

/-- FormChecker::addLocal: append a local; it starts initialized when asked or
when its type is defaultable, in which case its index is logged. -/
def addLocal (V : ValType) (Initialized : Bool) (st : FormChecker) : FormChecker :=
  if Initialized || V.isDefaultable then
    { st with Locals := st.Locals ++ [⟨V, true⟩],
              LocalInits := st.LocalInits ++ [st.Locals.length] }
  else
    { st with Locals := st.Locals ++ [⟨V, false⟩] }

/-- FormChecker::matchType, with an explicit recursion-depth fuel.  The C++
function recurses into the parameter and result lists when both heap types are
concrete type indices and relies on the pre-validated type section for
termination; the fuel makes the recursion structural (fuel zero answers
false, which pre-validated call sites never reach).  Out-of-range type-index
accesses (undefined in C++) read the default empty function type. -/
def matchType (ts : List FuncType) : Nat → ValType → ValType → Bool
  | 0, _, _ => false
  | fuel + 1, Exp, Got =>
    match Exp, Got with
    | .num c1, .num c2 => c1 == c2
    | .ref en eh, .ref gn gh =>
      if !en && gn then false
      else
        match eh, gh with
        | .FuncRef, .FuncRef => true
        | .ExternRef, .ExternRef => true
        | .FuncRef, .TypeIndex _ => true
        | .TypeIndex i, .TypeIndex j =>
          let ti := ts.getD i ([], [])
          let tj := ts.getD j ([], [])
          (ti.1.length == tj.1.length &&
             (ti.1.zip tj.1).all fun p => matchType ts fuel p.1 p.2) &&
          (ti.2.length == tj.2.length &&
             (ti.2.zip tj.2).all fun p => matchType ts fuel p.1 p.2)
        | _, _ => false
    | _, _ => false

/-- FormChecker::matchTypes: pointwise matching of two lists, requiring equal
lengths (at the same fuel as the element matches, mirroring the C++ loop). -/
def matchTypes (ts : List FuncType) (fuel : Nat) (Exp Got : List ValType) : Bool :=
  Exp.length == Got.length && (Exp.zip Got).all fun p => matchType ts fuel p.1 p.2

/-- Fuel used for the top-level entry points: the number of declared types
plus one, the recursion-depth bound admitted by the design notes for a
pre-validated type section. -/
def topFuel (st : FormChecker) : Nat := st.Types.length + 1

/-- Top-level matchType as used by the instruction checker. -/
def matchTypeTop (st : FormChecker) (Exp Got : ValType) : Bool :=
  matchType st.Types (topFuel st) Exp Got

/-- Top-level matchTypes as used by the instruction checker. -/
def matchTypesTop (st : FormChecker) (Exp Got : List ValType) : Bool :=
  matchTypes st.Types (topFuel st) Exp Got

/-- FormChecker::validate(ValType): a reference type with a concrete heap-type
index must index into the type list. -/
def validateVT (st : FormChecker) (v : ValType) : Except ErrCode Unit :=
  match v with
  | .ref _ (.TypeIndex i) =>
    if i ≥ st.Types.length then .error .InvalidFuncTypeIdx else .ok ()
  | _ => .ok ()

/-- FormChecker::pushType: push one stack entry. -/
def pushType (v : VType) (st : FormChecker) : FormChecker :=
  { st with ValStack := v :: st.ValStack }

/-- FormChecker::pushTypes on VType entries: push in order (the last element
of the input ends on top). -/
def pushTypes (ts : List VType) (st : FormChecker) : FormChecker :=
  ts.foldl (fun s v => pushType v s) st

/-- FormChecker::pushTypes on value types. -/
def pushValTypes (ts : List ValType) (st : FormChecker) : FormChecker :=
  ts.foldl (fun s v => pushType (some v) s) st

/-- FormChecker::popType(): at the current frame's height return Unknown when
the frame is unreachable and fail with TypeCheckFailed (stack underflow)
otherwise; above the height pop and return the top entry.  The two remaining
source-level situations (empty control stack, operand stack below the frame
height and empty) dereference the back of an empty vector in C++ and are
modelled as failures; they are unreachable from checkExpr-driven runs. -/
def popType (st : FormChecker) : Except ErrCode VType × FormChecker :=
  match st.CtrlStack with
  | [] => (.error .TypeCheckFailed, st)
  | f :: _ =>
    if st.ValStack.length = f.Height then
      if f.IsUnreachable then (.ok unreachableVType, st)
      else (.error .TypeCheckFailed, st)
    else
      match st.ValStack with
      | [] => (.error .TypeCheckFailed, st)
      | v :: vs => (.ok v, { st with ValStack := vs })

/-- FormChecker::popType(ValType): pop and require a match against the
expected type, treating an Unknown pop as vacuously matching and yielding the
expected type itself. -/
def popTypeExpect (E : ValType) (st : FormChecker) : Except ErrCode VType × FormChecker :=
  match popType st with
  | (.error e, st1) => (.error e, st1)
  | (.ok none, st1) => (.ok (some E), st1)
  | (.ok (some got), st1) =>
    if matchTypeTop st1 E got then (.ok (some got), st1)
    else (.error .TypeCheckFailed, st1)

/-- Auxiliary recursion for popTypes over an already reversed list. -/
def popTypesRev : List ValType → FormChecker → Except ErrCode Unit × FormChecker
  | [], st => (.ok (), st)
  | v :: vs, st =>
    match popTypeExpect v st with
    | (.error e, st1) => (.error e, st1)
    | (.ok _, st1) => popTypesRev vs st1

/-- FormChecker::popTypes: pop the expected types in reverse order. -/
def popTypes (Input : List ValType) (st : FormChecker) : Except ErrCode Unit × FormChecker :=
  popTypesRev Input.reverse st

/-- FormChecker::pushCtrl: record the block signature, the jump anchor, the
operand-stack height and the local-init watermark, with the unreachable flag
clear, then push the input types. -/
def pushCtrl (In Out : List ValType) (Jump : Nat) (Code : OpCode) (st : FormChecker) :
    FormChecker :=
  let f : CtrlFrame :=
    ⟨In, Out, Jump, st.ValStack.length, st.LocalInits.length, Code, false⟩
  pushValTypes In { st with CtrlStack := f :: st.CtrlStack }

/-- The revert loop of FormChecker::popCtrl: clear the IsInit flag of the
locals whose indices appear in the given tail of the local-init log. -/
def revertInit (ls : List LocalType) (idxs : List Nat) : List LocalType :=
  idxs.foldl (fun cur j => cur.set j ⟨(cur.getD j default).VType, false⟩) ls

/-- FormChecker::popCtrl: on an empty control stack fail; otherwise pop the
frame's end types, require the operand stack to be back at the frame's height,
revert the locals initialized during the frame (the log tail past the frame's
watermark), truncate the log to the watermark, and pop and return the frame.
The frame is read once up front: popTypes only mutates the operand stack, so
the back of the control stack is unchanged when C++ re-reads it. -/
def popCtrl (st : FormChecker) : Except ErrCode CtrlFrame × FormChecker :=
  match st.CtrlStack with
  | [] => (.error .TypeCheckFailed, st)
  | f :: _ =>
    match popTypes f.EndTypes st with
    | (.error e, st1) => (.error e, st1)
    | (.ok (), st1) =>
      if st1.ValStack.length ≠ f.Height then (.error .TypeCheckFailed, st1)
      else
        (.ok f,
          { st1 with
              Locals := revertInit st1.Locals (st1.LocalInits.drop f.InitedLocal),
              LocalInits := st1.LocalInits.take f.InitedLocal,
              CtrlStack := st1.CtrlStack.tail })

/-- FormChecker::getLabelTypes: the types a branch into the frame carries; the
start types for a loop, the end types otherwise. -/
def getLabelTypes (F : CtrlFrame) : List ValType :=
  if F.Code = .Loop then F.StartTypes else F.EndTypes

/-- FormChecker::unreachable: truncate the operand stack to the current
frame's height (the C++ loop pops one entry at a time while above the height,
which is exactly this truncation) and set the frame's unreachable flag.  An
empty control stack would dereference the back of an empty vector in C++ and
is modelled as a failure. -/
def unreachableOp (st : FormChecker) : Except ErrCode Unit × FormChecker :=
  match st.CtrlStack with
  | [] => (.error .TypeCheckFailed, st)
  | f :: rest =>
    (.ok (),
      { st with
          ValStack := st.ValStack.drop (st.ValStack.length - f.Height),
          CtrlStack := { f with IsUnreachable := true } :: rest })

/-- FormChecker::StackTrans: pop the taken types, then push the produced
types. -/
def StackTrans (Take Put : List ValType) (st : FormChecker) :
    Except ErrCode Unit × FormChecker :=
  match popTypes Take st with
  | (.error e, st1) => (.error e, st1)
  | (.ok (), st1) => (.ok (), pushValTypes Put st1)

/-- FormChecker::StackPopAny: pop one entry of any type. -/
def StackPopAny (st : FormChecker) : Except ErrCode Unit × FormChecker :=
  match popType st with
  | (.error e, st1) => (.error e, st1)
  | (.ok _, st1) => (.ok (), st1)

/-- Update the instruction at the given index (the in-place metadata writes;
out-of-range indices leave the list unchanged, matching in-range use). -/
def setInstrAt (st : FormChecker) (i : Nat) (upd : Instruction → Instruction) : FormChecker :=
  { st with Instrs := st.Instrs.set i (upd (st.Instrs.getD i default)) }

/-- The block-type resolution helper of FormChecker::checkInstr: empty means
no inputs and no outputs, a single value type (validated) means one output,
and a type index (bounds-checked against the type list, InvalidFuncTypeIdx
otherwise) selects a declared function type. -/
def checkBlockType (st : FormChecker) (BType : BlockType) :
    Except ErrCode (List ValType × List ValType) :=
  match BType with
  | .empty => .ok ([], [])
  | .valType v =>
    match validateVT st v with
    | .error e => .error e
    | .ok () => .ok ([], [v])
  | .typeIndex TypeIdx =>
    if TypeIdx ≥ st.Types.length then .error .InvalidFuncTypeIdx
    else .ok (st.Types.getD TypeIdx ([], []))

/-- The memory-index helper of FormChecker::checkInstr: bounds-check the
target memory index, then perform the stack transformation. -/
def checkMemAndTrans (Instr : Instruction) (Take Put : List ValType) (st : FormChecker) :
    Except ErrCode Unit × FormChecker :=
  if Instr.targetIndex ≥ st.Mems then (.error .InvalidMemoryIdx, st)
  else StackTrans Take Put st

/-- The lane-index helper of FormChecker::checkInstr: the encoded lane index
must be below the lane count, InvalidLaneIdx otherwise. -/
def checkLaneAndTrans (Instr : Instruction) (N : Nat) (Take Put : List ValType)
    (st : FormChecker) : Except ErrCode Unit × FormChecker :=
  if Instr.memLane ≥ N then (.error .InvalidLaneIdx, st)
  else StackTrans Take Put st

/-- The alignment helper of FormChecker::checkInstr for an access width of N
bits: bounds-check the target memory index, require the alignment exponent to
be at most 31 with 2 ^ exponent at most N / 8 (InvalidAlignment otherwise),
then optionally check the lane index against 128 / N and perform the stack
transformation. -/
def checkAlignAndTrans (Instr : Instruction) (N : Nat) (Take Put : List ValType)
    (CheckLane : Bool) (st : FormChecker) : Except ErrCode Unit × FormChecker :=
  if Instr.targetIndex ≥ st.Mems then (.error .InvalidMemoryIdx, st)
  else if Instr.memAlign > 31 || 2 ^ Instr.memAlign > N / 8 then
    (.error .InvalidAlignment, st)
  else if CheckLane then checkLaneAndTrans Instr (128 / N) Take Put st
  else StackTrans Take Put st

/-- The value-type matching helper of FormChecker::checkInstr: fail with
TypeCheckFailed when the lists do not match. -/
def checkTypesMatching (st : FormChecker) (Exp Got : List ValType) : Except ErrCode Unit :=
  if matchTypesTop st Exp Got then .ok () else .error .TypeCheckFailed

/-- The byte mask 0xE0 repeated over all sixteen lanes of a 128-bit
immediate, used by the i8x16.shuffle rule. -/
def shuffleMask : Nat := 0xe0e0e0e0e0e0e0e0e0e0e0e0e0e0e0e0

/-- FormChecker::checkInstr for the instruction at index i of the carried
instruction view (the C++ function receives a reference into the view; the
index plays the role of the instruction's address for jump-anchor and
PC-offset arithmetic).  Branch metadata and local stack offsets are written
into the instruction in place. -/
def checkInstr (i : Nat) (st : FormChecker) : Except ErrCode Unit × FormChecker :=
  let Instr := st.Instrs.getD i default
  match Instr.op with
  | .Unreachable => unreachableOp st
  | .Nop => (.ok (), st)
  | .Block | .Loop | .If =>
    match checkBlockType st Instr.blockType with
    | .error e => (.error e, st)
    | .ok (T1, T2) =>
      let step1 : Except ErrCode Unit × FormChecker :=
        if Instr.op = .If then
          match popTypeExpect (.num .I32) st with
          | (.error e, st1) => (.error e, st1)
          | (.ok _, st1) => (.ok (), st1)
        else (.ok (), st)
      match step1 with
      | (.error e, st1) => (.error e, st1)
      | (.ok (), st1) =>
        match popTypes T1 st1 with
        | (.error e, st2) => (.error e, st2)
        | (.ok (), st2) =>
          let From := if Instr.op = .Loop then i else i + Instr.jumpEnd
          let st3 := pushCtrl T1 T2 From Instr.op st2
          if Instr.op = .If ∧ Instr.jumpElse = Instr.jumpEnd then
            match checkTypesMatching st3 T2 T1 with
            | .error e => (.error e, st3)
            | .ok () => (.ok (), st3)
          else (.ok (), st3)
  | .Else =>
    match popCtrl st with
    | (.error e, st1) => (.error e, st1)
    | (.ok f, st1) => (.ok (), pushCtrl f.StartTypes f.EndTypes f.Jump .Else st1)
  | .End =>
    match popCtrl st with
    | (.error e, st1) => (.error e, st1)
    | (.ok f, st1) => (.ok (), pushValTypes f.EndTypes st1)
  | .Br =>
    let N := Instr.jumpTargetIndex
    if N < st.CtrlStack.length then
      let L := st.CtrlStack.getD N default
      let NTypes := getLabelTypes L
      match popTypes NTypes st with
      | (.error e, st1) => (.error e, st1)
      | (.ok (), st1) =>
        let Remain := u32 (sizeSub st1.ValStack.length L.Height)
        let Arity := u32 NTypes.length
        let st2 := setInstrAt st1 i fun ins =>
          { ins with stackEraseBegin := u32 (Remain + Arity),
                     stackEraseEnd := Arity,
                     pcOffset := toInt32 ((L.Jump : Int) - (i : Int)) }
        unreachableOp st2
    else (.error .InvalidLabelIdx, st)
  | .Br_if =>
    let N := Instr.jumpTargetIndex
    if N < st.CtrlStack.length then
      match popTypeExpect (.num .I32) st with
      | (.error e, st0) => (.error e, st0)
      | (.ok _, st0) =>
        let L := st0.CtrlStack.getD N default
        let NTypes := getLabelTypes L
        match popTypes NTypes st0 with
        | (.error e, st1) => (.error e, st1)
        | (.ok (), st1) =>
          let Remain := u32 (sizeSub st1.ValStack.length L.Height)
          let Arity := u32 NTypes.length
          let st2 := setInstrAt st1 i fun ins =>
            { ins with stackEraseBegin := u32 (Remain + Arity),
                       stackEraseEnd := Arity,
                       pcOffset := toInt32 ((L.Jump : Int) - (i : Int)) }
          (.ok (), pushValTypes NTypes st2)
    else (.error .InvalidLabelIdx, st)
  | .Call =>
    let N := Instr.targetIndex
    if N ≥ st.Funcs.length then (.error .InvalidFuncIdx, st)
    else
      let ft := st.Types.getD (st.Funcs.getD N 0) ([], [])
      StackTrans ft.1 ft.2 st
  | .Drop => StackPopAny st
  | .Local__get | .Local__set | .Local__tee =>
    if Instr.targetIndex ≥ st.Locals.length then (.error .InvalidLocalIdx, st)
    else
      let TExpect := st.Locals.getD Instr.targetIndex default
      let st1 := setInstrAt st i fun ins =>
        { ins with stackOffset := st.ValStack.length + (st.Locals.length - Instr.targetIndex) }
      match Instr.op with
      | .Local__get =>
        if !TExpect.IsInit then (.error .InvalidUninitLocal, st1)
        else StackTrans [] [TExpect.VType] st1
      | .Local__set =>
        let st2 :=
          if TExpect.IsInit then st1
          else
            { st1 with Locals := st1.Locals.set Instr.targetIndex ⟨TExpect.VType, true⟩,
                       LocalInits := st1.LocalInits ++ [Instr.targetIndex] }
        StackTrans [TExpect.VType] [] st2
      | _ =>
        let st2 :=
          if TExpect.IsInit then st1
          else
            { st1 with Locals := st1.Locals.set Instr.targetIndex ⟨TExpect.VType, true⟩,
                       LocalInits := st1.LocalInits ++ [Instr.targetIndex] }
        StackTrans [TExpect.VType] [TExpect.VType] st2
  | .I32__const => StackTrans [] [.num .I32] st
  | .I32__add => StackTrans [.num .I32, .num .I32] [.num .I32] st
  | .I32__load => checkAlignAndTrans Instr 32 [.num .I32] [.num .I32] false st
  | .I64__load => checkAlignAndTrans Instr 64 [.num .I32] [.num .I64] false st
  | .I32__store => checkAlignAndTrans Instr 32 [.num .I32, .num .I32] [] false st
  | .V128__load8_lane =>
    checkAlignAndTrans Instr 8 [.num .I32, .num .V128] [.num .V128] true st
  | .V128__const => StackTrans [] [.num .V128] st
  | .I8x16__shuffle =>
    if Instr.num &&& shuffleMask ≠ 0 then (.error .InvalidLaneIdx, st)
    else StackTrans [.num .V128, .num .V128] [.num .V128] st

/-- An error surfaced by the instruction walk, annotated with the offending
instruction's opcode and source offset (the C++ loop logs this information
before propagating the error code). -/
structure AnnErr where
  code : ErrCode
  op : OpCode
  offset : Nat

/-- The walk of FormChecker::checkInstrs from index i, with fuel for
termination (checkInstr preserves the length of the instruction list, so fuel
equal to the list length runs the walk to completion).  The first failing
instruction aborts the walk; its error is annotated with the instruction's
opcode and source offset as read after the instruction ran. -/
def checkInstrsGo : Nat → Nat → FormChecker → Except AnnErr Unit × FormChecker
  | 0, _, st => (.ok (), st)
  | fuel + 1, i, st =>
    if i < st.Instrs.length then
      match checkInstr i st with
      | (.error e, st1) =>
        let ins := st1.Instrs.getD i default
        (.error ⟨e, ins.op, ins.offset⟩, st1)
      | (.ok (), st1) => checkInstrsGo fuel (i + 1) st1
    else (.ok (), st)

/-- FormChecker::checkInstrs: validate all instructions in order. -/
def checkInstrs (st : FormChecker) : Except AnnErr Unit × FormChecker :=
  checkInstrsGo st.Instrs.length 0 st

/-- FormChecker::checkExpr: on a non-empty instruction sequence push the outer
control frame (no inputs, the returns as outputs, the last instruction as the
jump anchor; the frame opcode is the non-loop default of the pushCtrl
declaration) and walk the instructions; an empty sequence succeeds
immediately. -/
def checkExpr (st : FormChecker) : Except AnnErr Unit × FormChecker :=
  if st.Instrs.length > 0 then
    checkInstrs (pushCtrl [] st.Returns (st.Instrs.length - 1) .End st)
  else (.ok (), st)

/-- FormChecker::validate(InstrView, Span): append the passed result types to
the returns list, install the instruction view, and check the expression.
Note the scratch state is not cleared here; that is the job of reset. -/
def validate (Instrs : List Instruction) (RetVals : List ValType) (st : FormChecker) :
    Except AnnErr Unit × FormChecker :=
  checkExpr { st with Returns := st.Returns ++ RetVals, Instrs := Instrs }

/-- A module-environment population step: one of the addType / addFunc calls
a module-level caller performs before validation. -/
inductive EnvOp where
  | addType (ft : FuncType)
  | addFunc (TypeIdx : Nat) (IsImport : Bool)

/-- Apply one environment population step. -/
def applyEnvOp : EnvOp → FormChecker → FormChecker
  | .addType ft, st => addType ft st
  | .addFunc t imp, st => addFunc t imp st

/-- Apply a sequence of environment population steps in order. -/
def applyEnvOps (ops : List EnvOp) (st : FormChecker) : FormChecker :=
  ops.foldl (fun s op => applyEnvOp op s) st

/-- Well-formedness of the function list: every entry is a valid index into
the type list (the invariant the guarded addFunc maintains and the unguarded
indexing in the call rules relies on). -/
def FuncsWF (st : FormChecker) : Prop :=
  ∀ f ∈ st.Funcs, f < st.Types.length

/-- A checker state with a leftover returns list from an earlier validation
(no reset in between). -/
def c1St : FormChecker := { Returns := [.num .I32] }

/-- A trivial control frame used by concrete test states. -/
def c2F : CtrlFrame := ⟨[], [], 0, 0, 0, .Block, false⟩

/-- A state with one initialized local logged inside the open frame. -/
def c2St : FormChecker :=
  { Locals := [⟨.num .I32, true⟩], LocalInits := [0], CtrlStack := [c2F] }

/-- A state with one operand above the frame floor. -/
def c3StA : FormChecker := { ValStack := [some (.num .I32)], CtrlStack := [c2F] }

/-- A state at the frame floor with the frame marked unreachable. -/
def c3StB : FormChecker := { CtrlStack := [{ c2F with IsUnreachable := true }] }

/-- A state whose single instruction is a br to the outer frame (anchor set
two slots ahead, as by a decoder). -/
def c4StA : FormChecker :=
  { CtrlStack := [{ c2F with Jump := 2 }],
    Instrs := [{ op := .Br, jumpTargetIndex := 0 }] }

/-- As c4StA but with a br_if and an i32 condition on the stack. -/
def c4StB : FormChecker :=
  { ValStack := [some (.num .I32)],
    CtrlStack := [{ c2F with Jump := 2 }],
    Instrs := [{ op := .Br_if, jumpTargetIndex := 0 }] }

/-- A one-entry type list for concrete matchType tests. -/
def c5Ts : List FuncType := [([], [])]

/-- A state with one memory, for the alignment tests. -/
def c6St : FormChecker := { Mems := 1 }

/-- An i32.load instruction with the exact alignment exponent. -/
def c6Instr : Instruction := { op := .I32__load, memAlign := 2 }

/-- A state with one non-defaultable, uninitialized local whose body reads
local 0 (the uninitialized-local failure). -/
def c7St : FormChecker := addLocal (.ref false .FuncRef) false {}

/-- The body reading local 0. -/
def c7Body : List Instruction := [{ op := .Local__get, targetIndex := 0 }]

/-- A state whose first instruction fails without any metadata write (an
out-of-range local index). -/
def c7StW : FormChecker :=
  { CtrlStack := [c2F], Instrs := [{ op := .Local__get, targetIndex := 3, offset := 7 }] }

/-- A one-instruction body (a bare end) for the driver test. -/
def c8Body : List Instruction := [{ op := .End }]

/-- An environment population sequence: one type, one good function, one
out-of-range function declared as import. -/
def c10Ops : List EnvOp :=
  [.addType ([.num .I32], []), .addFunc 0 false, .addFunc 5 true]

/-- A state with a shuffle whose lane bytes are all below 32. -/
def c9StA : FormChecker :=
  { ValStack := [some (.num .V128), some (.num .V128)],
    CtrlStack := [c2F],
    Instrs := [{ op := .I8x16__shuffle, num := 31 }] }

/-- A state with a shuffle whose first lane byte is 32. -/
def c9StB : FormChecker :=
  { ValStack := [some (.num .V128), some (.num .V128)],
    CtrlStack := [c2F],
    Instrs := [{ op := .I8x16__shuffle, num := 32 }] }

/-- popType only mutates the operand stack. -/
theorem popType_preserves (st : FormChecker) :
    ((popType st).2).CtrlStack = st.CtrlStack ∧ ((popType st).2).Locals = st.Locals ∧
      ((popType st).2).LocalInits = st.LocalInits ∧ ((popType st).2).Instrs = st.Instrs ∧
      ((popType st).2).Types = st.Types ∧ ((popType st).2).Returns = st.Returns := by
  unfold popType
  repeat' split
  all_goals simp

/-- popTypeExpect only mutates the operand stack. -/
theorem popTypeExpect_preserves (E : ValType) (st : FormChecker) :
    ((popTypeExpect E st).2).CtrlStack = st.CtrlStack ∧
      ((popTypeExpect E st).2).Locals = st.Locals ∧
      ((popTypeExpect E st).2).LocalInits = st.LocalInits ∧
      ((popTypeExpect E st).2).Instrs = st.Instrs ∧
      ((popTypeExpect E st).2).Types = st.Types ∧
      ((popTypeExpect E st).2).Returns = st.Returns := by
  have h := popType_preserves st
  unfold popTypeExpect
  split
  next e st1 heq => rw [heq] at h; exact h
  next st1 heq => rw [heq] at h; exact h
  next got st1 heq =>
    rw [heq] at h
    split
    · exact h
    · exact h

/-- popTypesRev only mutates the operand stack. -/
theorem popTypesRev_preserves (l : List ValType) (st : FormChecker) :
    ((popTypesRev l st).2).CtrlStack = st.CtrlStack ∧
      ((popTypesRev l st).2).Locals = st.Locals ∧
      ((popTypesRev l st).2).LocalInits = st.LocalInits ∧
      ((popTypesRev l st).2).Instrs = st.Instrs ∧
      ((popTypesRev l st).2).Types = st.Types ∧
      ((popTypesRev l st).2).Returns = st.Returns := by
  induction l generalizing st with
  | nil => simp [popTypesRev]
  | cons v vs ih =>
    have h := popTypeExpect_preserves v st
    unfold popTypesRev
    split
    next e st1 heq => rw [heq] at h; exact h
    next r st1 heq =>
      rw [heq] at h
      have h2 := ih st1
      exact ⟨h2.1.trans h.1, h2.2.1.trans h.2.1, h2.2.2.1.trans h.2.2.1,
             h2.2.2.2.1.trans h.2.2.2.1, h2.2.2.2.2.1.trans h.2.2.2.2.1,
             h2.2.2.2.2.2.trans h.2.2.2.2.2⟩

/-- popTypes only mutates the operand stack. -/
theorem popTypes_preserves (l : List ValType) (st : FormChecker) :
    ((popTypes l st).2).CtrlStack = st.CtrlStack ∧
      ((popTypes l st).2).Locals = st.Locals ∧
      ((popTypes l st).2).LocalInits = st.LocalInits ∧
      ((popTypes l st).2).Instrs = st.Instrs ∧
      ((popTypes l st).2).Types = st.Types ∧
      ((popTypes l st).2).Returns = st.Returns :=
  popTypesRev_preserves l.reverse st

/-- popType fails only with TypeCheckFailed. -/
theorem popType_error (st : FormChecker) (e : ErrCode) (st1 : FormChecker)
    (h : popType st = (.error e, st1)) : e = .TypeCheckFailed := by
  unfold popType at h
  repeat' split at h
  all_goals simp_all

/-- popTypeExpect fails only with TypeCheckFailed. -/
theorem popTypeExpect_error (E : ValType) (st : FormChecker) (e : ErrCode)
    (st1 : FormChecker) (h : popTypeExpect E st = (.error e, st1)) :
    e = .TypeCheckFailed := by
  unfold popTypeExpect at h
  split at h
  next e0 st0 heq =>
    simp only [Prod.mk.injEq, Except.error.injEq] at h
    exact h.1 ▸ popType_error st e0 st0 heq
  next => simp_all
  next got st0 heq =>
    split at h <;> simp_all

/-- popTypesRev fails only with TypeCheckFailed. -/
theorem popTypesRev_error (l : List ValType) (st : FormChecker) (e : ErrCode)
    (st1 : FormChecker) (h : popTypesRev l st = (.error e, st1)) :
    e = .TypeCheckFailed := by
  induction l generalizing st with
  | nil => simp [popTypesRev] at h
  | cons v vs ih =>
    unfold popTypesRev at h
    split at h
    next e0 st0 heq =>
      simp at h
      exact h.1 ▸ popTypeExpect_error v st e0 st0 heq
    next r st0 heq => exact ih st0 h

/-- StackTrans fails only with TypeCheckFailed. -/
theorem StackTrans_error (Take Put : List ValType) (st : FormChecker) (e : ErrCode)
    (st1 : FormChecker) (h : StackTrans Take Put st = (.error e, st1)) :
    e = .TypeCheckFailed := by
  unfold StackTrans at h
  split at h
  next e0 st0 heq =>
    simp at h
    exact h.1 ▸ popTypesRev_error _ st e0 st0 heq
  next => simp_all

/-- pushValTypes pushes the given types, leaving the rest of the state alone:
the new operand stack is the reversed type list (as stack entries) in front of
the old one. -/
theorem pushValTypes_eq (ts : List ValType) (st : FormChecker) :
    pushValTypes ts st = { st with ValStack := ts.reverse.map some ++ st.ValStack } := by
  induction ts generalizing st with
  | nil => simp [pushValTypes]
  | cons t ts ih =>
    show pushValTypes ts (pushType (some t) st) = _
    rw [ih]
    simp [pushType]

/-- revertInit preserves the length of the locals list. -/
theorem revertInit_length (idxs : List Nat) (ls : List LocalType) :
    (revertInit ls idxs).length = ls.length := by
  induction idxs generalizing ls with
  | nil => rfl
  | cons k rest ih =>
    show (revertInit (ls.set k ⟨(ls.getD k default).VType, false⟩) rest).length = _
    rw [ih, List.length_set]

/-- Elementwise description of revertInit: a local whose index appears in the
processed list has its IsInit flag cleared and its type kept; other locals
are untouched. -/
theorem revertInit_getD (idxs : List Nat) (ls : List LocalType) (j : Nat)
    (hj : j < ls.length) :
    (revertInit ls idxs).getD j default =
      if j ∈ idxs then ⟨(ls.getD j default).VType, false⟩ else ls.getD j default := by
  induction idxs generalizing ls with
  | nil => simp [revertInit]
  | cons k rest ih =>
    show (revertInit (ls.set k ⟨(ls.getD k default).VType, false⟩) rest).getD j default = _
    rw [ih _ (by rw [List.length_set]; exact hj)]
    by_cases hjk : j = k
    · subst hjk
      have hset : (ls.set j ⟨(ls.getD j default).VType, false⟩).getD j default =
          ⟨(ls.getD j default).VType, false⟩ := by
        rw [List.getD_eq_getElem?_getD, List.getElem?_set_eq_of_lt _ hj]
        rfl
      rw [hset]
      by_cases hmem : j ∈ rest <;> simp [hmem]
    · have hset : (ls.set k ⟨(ls.getD k default).VType, false⟩).getD j default =
          ls.getD j default := by
        rw [List.getD_eq_getElem?_getD, List.getElem?_set_ne (fun h => hjk h.symm),
          ← List.getD_eq_getElem?_getD]
      rw [hset]
      by_cases hmem : j ∈ rest <;> simp [hmem, hjk]

/-- Claim C1 (counterexample): validate does not reset the scratch state.  On
a FormChecker instance with a leftover returns list from a previous
validation, a new call to validate with result type i32 starts checking with
the returns list equal to the two accumulated entries, not to the passed
result types alone. -/
theorem C1_counterexample :
    (validate [] [.num .I32] c1St).1 = .ok () ∧
      (validate [] [.num .I32] c1St).2.Returns ≠ [.num .I32] := by
  exact ⟨rfl, by decide⟩

/-- Claim C1 (amended): validate itself performs no reset: it appends the
passed result types to whatever returns list the checker already holds and
then checks the body over the existing scratch state.  The separate reset
method is what clears the operand stack, the control stack, the locals list
and the returns list (leaving the module-level environment alone unless the
CleanGlobal flag asks for it too, in which case the types, functions, tables,
memories, globals, data and element segments, declared refs and import
counters are cleared as well). -/
theorem C1_validate_no_reset (st : FormChecker) (instrs : List Instruction)
    (ret : List ValType) :
    validate instrs ret st = checkExpr { st with Returns := st.Returns ++ ret, Instrs := instrs } ∧
      (reset false st).ValStack = [] ∧ (reset false st).CtrlStack = [] ∧
      (reset false st).Locals = [] ∧ (reset false st).Returns = [] ∧
      (reset false st).Types = st.Types ∧ (reset false st).Funcs = st.Funcs ∧
      (reset false st).Mems = st.Mems ∧ (reset false st).Globals = st.Globals ∧
      (reset true st).Types = [] ∧ (reset true st).Funcs = [] ∧
      (reset true st).Mems = 0 ∧ (reset true st).ValStack = [] ∧
      (reset true st).Returns = [] :=
  ⟨rfl, rfl, rfl, rfl, rfl, rfl, rfl, rfl, rfl, rfl, rfl, rfl, rfl, rfl⟩

/-- Claim C3 (confirmed): with a non-empty control stack, popType strictly
above the current frame's height removes and returns the top operand; exactly
at the frame's height it returns Unknown without touching the stack precisely
when the frame is unreachable, and otherwise fails with TypeCheckFailed
(stack underflow). -/
theorem C3_popType (st : FormChecker) (f : CtrlFrame) (rest : List CtrlFrame)
    (hc : st.CtrlStack = f :: rest) :
    (st.ValStack.length > f.Height →
      popType st =
        (.ok (st.ValStack.getD 0 unreachableVType), { st with ValStack := st.ValStack.tail })) ∧
    (st.ValStack.length = f.Height →
      popType st =
        if f.IsUnreachable then (.ok unreachableVType, st)
        else (.error .TypeCheckFailed, st)) := by
  constructor
  · intro hgt
    obtain ⟨v, vs, hv⟩ : ∃ v vs, st.ValStack = v :: vs := by
      cases hval : st.ValStack with
      | nil => rw [hval] at hgt; simp at hgt
      | cons v vs => exact ⟨v, vs, rfl⟩
    unfold popType
    rw [hc, hv]
    rw [hv] at hgt
    simp only [List.length_cons] at hgt
    dsimp only
    rw [if_neg (by simp only [List.length_cons]; omega)]
    simp [hv]
  · intro heq
    unfold popType
    rw [hc]
    dsimp only
    rw [if_pos heq]

/-- Claim C3 (witness): on a state with one i32 above the floor the pop
returns it; on a state at the floor of an unreachable frame the pop returns
Unknown and leaves the state unchanged. -/
theorem C3_witness :
    popType c3StA =
        (.ok (c3StA.ValStack.getD 0 unreachableVType), { c3StA with ValStack := c3StA.ValStack.tail }) ∧
      popType c3StB = (.ok unreachableVType, c3StB) := by
  refine ⟨(C3_popType c3StA c2F [] rfl).1 (by decide), ?_⟩
  have h := (C3_popType c3StB { c2F with IsUnreachable := true } [] rfl).2 (by decide)
  simpa using h

/-- Claim C8 (confirmed): validate on an empty body succeeds immediately for
every returns signature, opening no control frame and producing no operands;
on a non-empty body it first pushes the outer control frame (no inputs, the
accumulated returns as outputs, the last instruction as the jump anchor, at
the current stack height and watermark, not unreachable) and then hands the
body to the in-order instruction walk. -/
theorem C8_checkExpr (st : FormChecker) (ret : List ValType) :
    validate [] ret st = (.ok (), { st with Returns := st.Returns ++ ret, Instrs := [] }) ∧
      (∀ instrs : List Instruction, instrs ≠ [] →
        validate instrs ret st =
          checkInstrs
            { st with Returns := st.Returns ++ ret, Instrs := instrs,
                      CtrlStack :=
                        (⟨[], st.Returns ++ ret, instrs.length - 1, st.ValStack.length,
                          st.LocalInits.length, .End, false⟩ : CtrlFrame) :: st.CtrlStack }) := by
  constructor
  · rfl
  · intro instrs h
    show checkExpr _ = _
    unfold checkExpr
    rw [if_pos (by simpa using List.length_pos.mpr h)]
    rfl

/-- Claim C8 (witness): a single-end body with no returns opens the outer
frame anchored at instruction 0 and validates. -/
theorem C8_witness :
    validate c8Body [] ({} : FormChecker) =
        checkInstrs
          { Instrs := c8Body,
            CtrlStack := [(⟨[], [], 0, 0, 0, .End, false⟩ : CtrlFrame)] } ∧
      (validate c8Body [] ({} : FormChecker)).1 = .ok () := by
  have h := (C8_checkExpr ({} : FormChecker) []).2 c8Body (by simp [c8Body])
  exact ⟨by simpa using h, rfl⟩

/-- Claim C10 (confirmed): the guarded addFunc keeps every function entry a
valid index into the type list: the invariant is preserved by any sequence of
addType and addFunc calls (and holds from the pristine state), an addFunc
with an out-of-range type index appends nothing to the function list while
still counting an import when asked, and under the invariant the unguarded
read Types[Funcs[N]] performed by the call rules after their N < |Funcs|
check is in bounds. -/
theorem C10_addFunc_invariant :
    (∀ (ops : List EnvOp) (st : FormChecker), FuncsWF st → FuncsWF (applyEnvOps ops st)) ∧
      (∀ ops : List EnvOp, FuncsWF (applyEnvOps ops {})) ∧
      (∀ (t : Nat) (imp : Bool) (st : FormChecker), st.Types.length ≤ t →
        (addFunc t imp st).Funcs = st.Funcs ∧
          (addFunc t imp st).NumImportFuncs =
            st.NumImportFuncs + (if imp then 1 else 0)) ∧
      (∀ (st : FormChecker) (N : Nat), FuncsWF st → N < st.Funcs.length →
        st.Funcs.getD N 0 < st.Types.length) := by
  have hFu : ∀ (t : Nat) (imp : Bool) (st : FormChecker),
      (addFunc t imp st).Funcs =
        if st.Types.length > t then st.Funcs ++ [t] else st.Funcs := by
    intro t imp st
    unfold addFunc
    split <;> cases imp <;> rfl
  have hTy : ∀ (t : Nat) (imp : Bool) (st : FormChecker),
      (addFunc t imp st).Types = st.Types := by
    intro t imp st
    unfold addFunc
    split <;> cases imp <;> rfl
  have hNI : ∀ (t : Nat) (imp : Bool) (st : FormChecker),
      (addFunc t imp st).NumImportFuncs =
        st.NumImportFuncs + (if imp then 1 else 0) := by
    intro t imp st
    unfold addFunc
    split <;> cases imp <;> simp
  have hstep : ∀ (op : EnvOp) (st : FormChecker), FuncsWF st → FuncsWF (applyEnvOp op st) := by
    intro op st hwf
    cases op with
    | addType ft =>
      intro f hf
      have hf2 : f ∈ st.Funcs := hf
      have h3 := hwf f hf2
      show f < (st.Types ++ [ft]).length
      rw [List.length_append]
      omega
    | addFunc t imp =>
      intro f hf
      show f < (addFunc t imp st).Types.length
      rw [hTy]
      have hf2 : f ∈ (addFunc t imp st).Funcs := hf
      rw [hFu] at hf2
      split at hf2
      · rcases List.mem_append.mp hf2 with h | h
        · exact hwf f h
        · simp only [List.mem_singleton] at h
          omega
      · exact hwf f hf2
  have hall : ∀ (ops : List EnvOp) (st : FormChecker), FuncsWF st → FuncsWF (applyEnvOps ops st) := by
    intro ops
    induction ops with
    | nil => intro st h; exact h
    | cons op ops ih => intro st h; exact ih _ (hstep op st h)
  refine ⟨hall, fun ops => hall ops {} (by intro f hf; simp [FuncsWF] at hf), ?_, ?_⟩
  · intro t imp st hle
    refine ⟨?_, hNI t imp st⟩
    rw [hFu]
    rw [if_neg (by omega)]
  · intro st N hwf hN
    have : st.Funcs.getD N 0 ∈ st.Funcs := by
      rw [List.getD_eq_getElem?_getD, List.getElem?_eq_getElem hN]
      exact List.getElem_mem ..
    exact hwf _ this

/-- Claim C10 (witness): after adding one type, one in-range function and one
out-of-range imported function, the function list holds only the valid index,
the import was counted, and the recorded index is in bounds. -/
theorem C10_witness :
    FuncsWF (applyEnvOps c10Ops {}) ∧
      (applyEnvOps c10Ops {}).Funcs = [0] ∧
      (applyEnvOps c10Ops {}).NumImportFuncs = 1 ∧
      (applyEnvOps c10Ops {}).Funcs.getD 0 0 < (applyEnvOps c10Ops {}).Types.length := by
  refine ⟨C10_addFunc_invariant.2.1 c10Ops, by decide, by decide, ?_⟩
  exact C10_addFunc_invariant.2.2.2 _ 0 (C10_addFunc_invariant.2.1 c10Ops) (by decide)

/-- Claim C2 (confirmed): with a non-empty control stack, popCtrl first pops
the frame's end types (propagating their failure), then fails with
TypeCheckFailed unless the operand stack is back exactly at the frame's
recorded height, and on success pops the frame and returns it after clearing
the IsInit flag of exactly the local indices logged at or beyond the frame's
watermark (keeping their types) and truncating the log back to the
watermark; in particular every local first initialized inside the popped
frame is uninitialized again. -/
theorem C2_popCtrl (st : FormChecker) (f : CtrlFrame) (rest : List CtrlFrame)
    (hc : st.CtrlStack = f :: rest) :
    (∀ e st1, popTypes f.EndTypes st = (.error e, st1) → popCtrl st = (.error e, st1)) ∧
    (∀ st1, popTypes f.EndTypes st = (.ok (), st1) → st1.ValStack.length ≠ f.Height →
      popCtrl st = (.error .TypeCheckFailed, st1)) ∧
    (∀ st1, popTypes f.EndTypes st = (.ok (), st1) → st1.ValStack.length = f.Height →
      (popCtrl st).1 = .ok f ∧
      (popCtrl st).2.CtrlStack = rest ∧
      (popCtrl st).2.LocalInits = st1.LocalInits.take f.InitedLocal ∧
      (popCtrl st).2.ValStack = st1.ValStack ∧
      (popCtrl st).2.Locals.length = st1.Locals.length ∧
      ∀ j, j < st1.Locals.length →
        ((popCtrl st).2.Locals.getD j default).VType = (st1.Locals.getD j default).VType ∧
        (((popCtrl st).2.Locals.getD j default).IsInit =
          if j ∈ st1.LocalInits.drop f.InitedLocal then false
          else (st1.Locals.getD j default).IsInit)) := by
  have hpres := (popTypes_preserves f.EndTypes st).1
  refine ⟨?_, ?_, ?_⟩
  · intro e st1 h
    unfold popCtrl
    rw [hc]
    dsimp only
    rw [h]
  · intro st1 h hne
    unfold popCtrl
    rw [hc]
    dsimp only
    rw [h]
    dsimp only
    rw [if_pos hne]
  · intro st1 h heq
    have hcs1 : st1.CtrlStack = f :: rest := by
      rw [h] at hpres
      dsimp only at hpres
      rw [hpres, hc]
    have hpc : popCtrl st =
        (.ok f,
          { st1 with
              Locals := revertInit st1.Locals (st1.LocalInits.drop f.InitedLocal),
              LocalInits := st1.LocalInits.take f.InitedLocal,
              CtrlStack := st1.CtrlStack.tail }) := by
      unfold popCtrl
      rw [hc]
      dsimp only
      rw [h]
      dsimp only
      rw [if_neg (not_not_intro heq)]
    rw [hpc]
    refine ⟨rfl, ?_, rfl, rfl, revertInit_length _ _, ?_⟩
    · dsimp only
      rw [hcs1]
      rfl
    · intro j hj
      dsimp only
      rw [revertInit_getD _ _ j hj]
      by_cases hm : j ∈ st1.LocalInits.drop f.InitedLocal <;> simp [hm]

/-- Claim C2 (witness): popping the frame of a state with one local logged
inside the frame succeeds (empty end types, stack at the floor), empties the
log, and marks the local uninitialized again. -/
theorem C2_witness :
    (popCtrl c2St).1 = .ok c2F ∧ (popCtrl c2St).2.LocalInits = [] ∧
      ((popCtrl c2St).2.Locals.getD 0 default).IsInit = false := by
  have h := (C2_popCtrl c2St c2F [] rfl).2.2 c2St rfl rfl
  refine ⟨h.1, ?_, ?_⟩
  · have h2 := h.2.2.1
    simpa [c2St, c2F] using h2
  · have h2 := (h.2.2.2.2.2 0 (by decide)).2
    simpa [c2St, c2F] using h2

/-- StackTrans either succeeds or fails with TypeCheckFailed. -/
theorem StackTrans_first (Take Put : List ValType) (st : FormChecker) :
    (StackTrans Take Put st).1 = .ok () ∨
      (StackTrans Take Put st).1 = .error .TypeCheckFailed := by
  rcases h : StackTrans Take Put st with ⟨r, st1⟩
  cases r with
  | ok u => cases u; left; rfl
  | error e =>
    have he := StackTrans_error Take Put st e st1 h
    subst he
    right; rfl

/-- checkLaneAndTrans succeeds or fails with TypeCheckFailed or
InvalidLaneIdx. -/
theorem checkLaneAndTrans_first (Instr : Instruction) (n : Nat) (Take Put : List ValType)
    (st : FormChecker) :
    (checkLaneAndTrans Instr n Take Put st).1 = .ok () ∨
      (checkLaneAndTrans Instr n Take Put st).1 = .error .TypeCheckFailed ∨
      (checkLaneAndTrans Instr n Take Put st).1 = .error .InvalidLaneIdx := by
  unfold checkLaneAndTrans
  split
  · right; right; rfl
  · rcases StackTrans_first Take Put st with h | h
    · left; exact h
    · right; left; exact h

/-- The alignment gate of checkAlignAndTrans: with the memory index in range,
the helper surfaces InvalidAlignment exactly when the encoded alignment
exponent is above 31 or 2 ^ exponent exceeds N / 8. -/
theorem checkAlign_iff (st : FormChecker) (N : Nat) (Take Put : List ValType) (CL : Bool)
    (Instr : Instruction) (hmem : Instr.targetIndex < st.Mems) :
    (checkAlignAndTrans Instr N Take Put CL st).1 = .error .InvalidAlignment ↔
      ¬(Instr.memAlign ≤ 31 ∧ 2 ^ Instr.memAlign ≤ N / 8) := by
  unfold checkAlignAndTrans
  rw [if_neg (by omega)]
  by_cases hA : Instr.memAlign ≤ 31 ∧ 2 ^ Instr.memAlign ≤ N / 8
  · rw [if_neg (by simp only [Bool.or_eq_true, decide_eq_true_eq]; omega)]
    constructor
    · intro hres
      exfalso
      cases CL with
      | false =>
        simp only [Bool.false_eq_true, if_false] at hres
        rcases StackTrans_first Take Put st with h | h <;> rw [h] at hres <;> simp at hres
      | true =>
        simp only [if_true] at hres
        rcases checkLaneAndTrans_first Instr (128 / N) Take Put st with h | h | h <;>
          rw [h] at hres <;> simp at hres
    · intro hcon; exact absurd hA hcon
  · rw [if_pos (by simp only [Bool.or_eq_true, decide_eq_true_eq]; omega)]
    simpa using hA

/-- Claim C6 (confirmed): for an aligned load or store of access width N bits
with the target memory index in range, validation passes the alignment check
exactly when the encoded exponent a satisfies a at most 31 and 2 ^ a at most
N / 8, failing with InvalidAlignment otherwise; for the widths in use
(N = 8 * 2 ^ k) the exponent k is accepted while k + 1 is rejected; and the
load/store opcodes dispatch to this helper (shown for i32.load with N = 32). -/
theorem C6_alignment (st : FormChecker) (N : Nat) (Take Put : List ValType) (CL : Bool) :
    (∀ Instr : Instruction, Instr.targetIndex < st.Mems →
      ((checkAlignAndTrans Instr N Take Put CL st).1 = .error .InvalidAlignment ↔
        ¬(Instr.memAlign ≤ 31 ∧ 2 ^ Instr.memAlign ≤ N / 8))) ∧
    (∀ (Instr : Instruction) (k : Nat), Instr.targetIndex < st.Mems →
      N = 8 * 2 ^ k → k ≤ 31 →
      ((Instr.memAlign = k →
        (checkAlignAndTrans Instr N Take Put CL st).1 ≠ .error .InvalidAlignment) ∧
       (Instr.memAlign = k + 1 →
        (checkAlignAndTrans Instr N Take Put CL st).1 = .error .InvalidAlignment))) ∧
    (∀ (i : Nat) (st2 : FormChecker), (st2.Instrs.getD i default).op = .I32__load →
      checkInstr i st2 =
        checkAlignAndTrans (st2.Instrs.getD i default) 32 [.num .I32] [.num .I32] false st2) := by
  refine ⟨fun Instr hmem => checkAlign_iff st N Take Put CL Instr hmem, ?_, ?_⟩
  · intro Instr k hmem hN hk
    have hdiv : N / 8 = 2 ^ k := by rw [hN, Nat.mul_div_cancel_left _ (by norm_num)]
    constructor
    · intro ha hres
      have := (checkAlign_iff st N Take Put CL Instr hmem).mp hres
      exact this ⟨by omega, by rw [hdiv, ha]⟩
    · intro ha
      refine (checkAlign_iff st N Take Put CL Instr hmem).mpr ?_
      rintro ⟨-, h2⟩
      rw [hdiv, ha] at h2
      have : (2 : Nat) ^ k < 2 ^ (k + 1) := Nat.pow_lt_pow_right (by norm_num) (by omega)
      omega
  · intro i st2 hop
    simp only [checkInstr]
    rw [hop]

/-- Claim C6 (witness): with one memory, i32.load at alignment exponent 2
passes the alignment check, and at exponent 3 it fails with
InvalidAlignment. -/
theorem C6_witness :
    (checkAlignAndTrans c6Instr 32 [.num .I32] [.num .I32] false c6St).1 ≠
        .error .InvalidAlignment ∧
      (checkAlignAndTrans { op := .I32__load, memAlign := 3 } 32 [.num .I32] [.num .I32] false
          c6St).1 = .error .InvalidAlignment := by
  constructor
  · exact ((C6_alignment c6St 32 [.num .I32] [.num .I32] false).2.1 c6Instr 2 (by decide)
      (by norm_num) (by norm_num)).1 rfl
  · exact ((C6_alignment c6St 32 [.num .I32] [.num .I32] false).2.1
      { op := .I32__load, memAlign := 3 } 2 (by decide) (by norm_num) (by norm_num)).2 rfl

/-- Claim C7 (counterexample): a failing instruction can commit a write to
its own metadata fields before failing.  With one non-defaultable
uninitialized local, local.get 0 fails with InvalidUninitLocal, yet the
stack-offset metadata of that very instruction has been written (from 0 to 1)
by the time the error surfaces. -/
theorem C7_counterexample :
    (validate c7Body [] c7St).1 = .error ⟨.InvalidUninitLocal, .Local__get, 0⟩ ∧
      (c7Body.getD 0 default).stackOffset = 0 ∧
      ((validate c7Body [] c7St).2.Instrs.getD 0 default).stackOffset = 1 :=
  ⟨rfl, rfl, rfl⟩

/-- Claim C7 (amended): checking aborts at the first failing instruction and
the surfaced error is annotated with that instruction's opcode and source
offset; the state handed back is exactly the state the failing instruction
left behind.  No results are committed beyond the metadata writes of earlier
successful instructions, plus any metadata write the failing instruction
itself performed before failing (local.get writes its stack offset before its
initialization check). -/
theorem C7_first_failure (fuel i : Nat) (st st1 : FormChecker) (e : ErrCode)
    (hi : i < st.Instrs.length) :
    (checkInstr i st = (.error e, st1) →
      checkInstrsGo (fuel + 1) i st =
        (.error ⟨e, (st1.Instrs.getD i default).op, (st1.Instrs.getD i default).offset⟩, st1)) ∧
    (checkInstr i st = (.ok (), st1) →
      checkInstrsGo (fuel + 1) i st = checkInstrsGo fuel (i + 1) st1) := by
  constructor
  · intro h
    unfold checkInstrsGo
    rw [if_pos hi, h]
  · intro h
    conv_lhs => unfold checkInstrsGo
    rw [if_pos hi, h]

/-- Claim C7 (witness): a body whose first instruction fails (local.get on an
out-of-range index) aborts the walk at once with the error annotated by that
instruction's opcode and offset. -/
theorem C7_witness :
    checkInstrsGo 1 0 c7StW = (.error ⟨.InvalidLocalIdx, .Local__get, 7⟩, c7StW) := by
  have h := (C7_first_failure 0 0 c7StW c7StW .InvalidLocalIdx (by decide)).1 rfl
  simpa [c7StW] using h

/-- Claim C4 (confirmed): for br and br_if with label depth in range whose
operand checks pass against the label frame L with label types T, the checker
writes into the instruction stack_erase_begin equal to the remaining stack
above the label's height (measured after popping T) plus the arity of T,
stack_erase_end equal to that arity, and pc_offset equal to the signed 32-bit
difference between the jump anchor's index and the instruction's own index;
afterwards br marks the current frame unreachable and truncates the stack to
its floor, while br_if pushes T back onto the stack. -/
theorem C4_branch_metadata (st st1 : FormChecker) (i N : Nat) (L c0 : CtrlFrame)
    (T : List ValType) (crest : List CtrlFrame)
    (hc : st.CtrlStack = c0 :: crest)
    (hi : i < st.Instrs.length)
    (hN : (st.Instrs.getD i default).jumpTargetIndex = N)
    (hNlt : N < st.CtrlStack.length)
    (hL : st.CtrlStack.getD N default = L)
    (hT : getLabelTypes L = T)
    (hHt : L.Height ≤ st1.ValStack.length)
    (hsmall : st1.ValStack.length - L.Height + T.length < 2 ^ 32) :
    ((st.Instrs.getD i default).op = .Br →
      popTypes T st = (.ok (), st1) →
      (checkInstr i st).1 = .ok () ∧
      ((checkInstr i st).2.Instrs.getD i default).stackEraseBegin =
        st1.ValStack.length - L.Height + T.length ∧
      ((checkInstr i st).2.Instrs.getD i default).stackEraseEnd = T.length ∧
      ((checkInstr i st).2.Instrs.getD i default).pcOffset =
        toInt32 ((L.Jump : Int) - (i : Int)) ∧
      (checkInstr i st).2.CtrlStack = { c0 with IsUnreachable := true } :: crest ∧
      (checkInstr i st).2.ValStack =
        st1.ValStack.drop (st1.ValStack.length - c0.Height)) ∧
    (∀ w st0, (st.Instrs.getD i default).op = .Br_if →
      popTypeExpect (.num .I32) st = (.ok w, st0) →
      popTypes T st0 = (.ok (), st1) →
      (checkInstr i st).1 = .ok () ∧
      ((checkInstr i st).2.Instrs.getD i default).stackEraseBegin =
        st1.ValStack.length - L.Height + T.length ∧
      ((checkInstr i st).2.Instrs.getD i default).stackEraseEnd = T.length ∧
      ((checkInstr i st).2.Instrs.getD i default).pcOffset =
        toInt32 ((L.Jump : Int) - (i : Int)) ∧
      (checkInstr i st).2.CtrlStack = st.CtrlStack ∧
      (checkInstr i st).2.ValStack = T.reverse.map some ++ st1.ValStack) := by
  have harith : u32 (u32 (sizeSub st1.ValStack.length L.Height) + u32 T.length) =
      st1.ValStack.length - L.Height + T.length := by
    unfold u32 sizeSub
    omega
  have harityU : u32 T.length = T.length := Nat.mod_eq_of_lt (by omega)
  constructor
  · intro hop hpop
    have hcs1 : st1.CtrlStack = c0 :: crest := by
      have hp := (popTypes_preserves T st).1
      rw [hpop] at hp
      dsimp only at hp
      rw [hp, hc]
    have hlen1 : st1.Instrs = st.Instrs := by
      have hp := (popTypes_preserves T st).2.2.2.1
      rw [hpop] at hp
      exact hp
    have hrun : checkInstr i st =
        (.ok (),
          { st1 with
              Instrs := st1.Instrs.set i
                ({ st1.Instrs.getD i default with
                    stackEraseBegin :=
                      u32 (u32 (sizeSub st1.ValStack.length L.Height) + u32 T.length),
                    stackEraseEnd := u32 T.length,
                    pcOffset := toInt32 ((L.Jump : Int) - (i : Int)) }),
              ValStack := st1.ValStack.drop (st1.ValStack.length - c0.Height),
              CtrlStack := { c0 with IsUnreachable := true } :: crest }) := by
      simp only [checkInstr]
      rw [hop]
      dsimp only
      rw [hN, if_pos hNlt, hL, hT, hpop]
      dsimp only [unreachableOp, setInstrAt]
      rw [hcs1]
    rw [hrun]
    have hgetset : (st1.Instrs.set i
        ({ st1.Instrs.getD i default with
            stackEraseBegin :=
              u32 (u32 (sizeSub st1.ValStack.length L.Height) + u32 T.length),
            stackEraseEnd := u32 T.length,
            pcOffset := toInt32 ((L.Jump : Int) - (i : Int)) })).getD i default =
        { st1.Instrs.getD i default with
            stackEraseBegin :=
              u32 (u32 (sizeSub st1.ValStack.length L.Height) + u32 T.length),
            stackEraseEnd := u32 T.length,
            pcOffset := toInt32 ((L.Jump : Int) - (i : Int)) } := by
      rw [List.getD_eq_getElem?_getD, List.getElem?_set_eq_of_lt _ (by rw [hlen1]; exact hi)]
      rfl
    refine ⟨rfl, ?_, ?_, ?_, rfl, rfl⟩
    · dsimp only
      rw [hgetset]
      exact harith
    · dsimp only
      rw [hgetset]
      exact harityU
    · dsimp only
      rw [hgetset]
  · intro w st0 hop hpopc hpop
    have hcs0 : st0.CtrlStack = st.CtrlStack := by
      have hp := (popTypeExpect_preserves (.num .I32) st).1
      rw [hpopc] at hp
      exact hp
    have hcs1 : st1.CtrlStack = st.CtrlStack := by
      have hp := (popTypes_preserves T st0).1
      rw [hpop] at hp
      dsimp only at hp
      rw [hp, hcs0]
    have hlen0 : st0.Instrs = st.Instrs := by
      have hp := (popTypeExpect_preserves (.num .I32) st).2.2.2.1
      rw [hpopc] at hp
      exact hp
    have hlen1 : st1.Instrs = st.Instrs := by
      have hp := (popTypes_preserves T st0).2.2.2.1
      rw [hpop] at hp
      dsimp only at hp
      rw [hp, hlen0]
    have hL0 : st0.CtrlStack.getD N default = L := by rw [hcs0]; exact hL
    have hrun : checkInstr i st =
        (.ok (),
          pushValTypes T
            { st1 with
                Instrs := st1.Instrs.set i
                  ({ st1.Instrs.getD i default with
                      stackEraseBegin :=
                        u32 (u32 (sizeSub st1.ValStack.length L.Height) + u32 T.length),
                      stackEraseEnd := u32 T.length,
                      pcOffset := toInt32 ((L.Jump : Int) - (i : Int)) }) }) := by
      simp only [checkInstr]
      rw [hop]
      dsimp only
      rw [hN, if_pos hNlt, hpopc]
      dsimp only
      rw [hL0, hT, hpop]
      rfl
    rw [hrun, pushValTypes_eq]
    have hgetset : (st1.Instrs.set i
        ({ st1.Instrs.getD i default with
            stackEraseBegin :=
              u32 (u32 (sizeSub st1.ValStack.length L.Height) + u32 T.length),
            stackEraseEnd := u32 T.length,
            pcOffset := toInt32 ((L.Jump : Int) - (i : Int)) })).getD i default =
        { st1.Instrs.getD i default with
            stackEraseBegin :=
              u32 (u32 (sizeSub st1.ValStack.length L.Height) + u32 T.length),
            stackEraseEnd := u32 T.length,
            pcOffset := toInt32 ((L.Jump : Int) - (i : Int)) } := by
      rw [List.getD_eq_getElem?_getD, List.getElem?_set_eq_of_lt _ (by rw [hlen1]; exact hi)]
      rfl
    refine ⟨rfl, ?_, ?_, ?_, ?_, rfl⟩
    · dsimp only
      rw [hgetset]
      exact harith
    · dsimp only
      rw [hgetset]
      exact harityU
    · dsimp only
      rw [hgetset]
    · dsimp only
      exact hcs1

/-- Claim C4 (witness): a br (and a br_if with an i32 condition) to a frame
with empty label types and anchor index 2 validates, marks the metadata with
erase counts 0 and PC offset 2, and leaves the expected stacks. -/
theorem C4_witness :
    (checkInstr 0 c4StA).1 = .ok () ∧
      ((checkInstr 0 c4StA).2.Instrs.getD 0 default).pcOffset = 2 ∧
      ((checkInstr 0 c4StA).2.Instrs.getD 0 default).stackEraseBegin = 0 ∧
      (checkInstr 0 c4StB).1 = .ok () ∧
      ((checkInstr 0 c4StB).2.Instrs.getD 0 default).pcOffset = 2 ∧
      (checkInstr 0 c4StB).2.ValStack = [] := by
  have hA := (C4_branch_metadata c4StA c4StA 0 0 { c2F with Jump := 2 }
      { c2F with Jump := 2 } [] [] rfl (by decide) rfl (by decide) rfl rfl
      (by decide) (by decide)).1 rfl rfl
  have hB := (C4_branch_metadata c4StB { c4StB with ValStack := [] } 0 0
      { c2F with Jump := 2 } { c2F with Jump := 2 } [] []
      rfl (by decide) rfl (by decide) rfl rfl (by decide) (by decide)).2
      (some (.num .I32)) { c4StB with ValStack := [] } rfl rfl rfl
  refine ⟨hA.1, ?_, ?_, hB.1, ?_, ?_⟩
  · rw [hA.2.2.2.1]
    decide
  · rw [hA.2.1]
    decide
  · rw [hB.2.2.2.1]
    decide
  · rw [hB.2.2.2.2.2]
    decide

/-- Claim C5 (confirmed): matchType on two reference types answers false
whenever the expected side is non-nullable and the got side is nullable; once
the nullability rule passes, a funcref expectation accepts any concrete type
index, and two concrete indices match exactly when the parameter lists and
the result lists of the indexed function types match pointwise under the same
relation (one recursion step deeper); non-reference types match exactly when
their codes are equal. -/
theorem C5_matchType (ts : List FuncType) :
    (∀ (fuel : Nat) (eh gh : HeapType),
      matchType ts fuel (.ref false eh) (.ref true gh) = false) ∧
    (∀ (fuel : Nat) (en gn : Bool) (j : Nat), en = true ∨ gn = false →
      matchType ts (fuel + 1) (.ref en .FuncRef) (.ref gn (.TypeIndex j)) = true) ∧
    (∀ (fuel : Nat) (en gn : Bool) (i j : Nat), en = true ∨ gn = false →
      i < ts.length → j < ts.length →
      matchType ts (fuel + 1) (.ref en (.TypeIndex i)) (.ref gn (.TypeIndex j)) =
        (matchTypes ts fuel (ts.getD i ([], [])).1 (ts.getD j ([], [])).1 &&
          matchTypes ts fuel (ts.getD i ([], [])).2 (ts.getD j ([], [])).2)) ∧
    (∀ (fuel : Nat) (c1 c2 : NumCode),
      matchType ts (fuel + 1) (.num c1) (.num c2) = (c1 == c2)) := by
  refine ⟨?_, ?_, ?_, ?_⟩
  · intro fuel eh gh
    cases fuel with
    | zero => rfl
    | succ fuel => simp [matchType]
  · intro fuel en gn j h
    have hcond : (!en && gn) = false := by
      rcases h with h | h <;> subst h <;> simp
    simp [matchType, hcond]
  · intro fuel en gn i j h hi hj
    have hcond : (!en && gn) = false := by
      rcases h with h | h <;> subst h <;> simp
    simp [matchType, matchTypes, hcond]
  · intro fuel c1 c2
    simp [matchType]

/-- Claim C5 (witness): over a one-entry type list, a nullable reference to
index 0 matches itself (empty parameter and result lists match pointwise),
funcref accepts the concrete index, a non-nullable expectation rejects a
nullable reference, and i32 matches i32. -/
theorem C5_witness :
    matchType c5Ts 1 (.ref true (.TypeIndex 0)) (.ref true (.TypeIndex 0)) = true ∧
      matchType c5Ts 1 (.ref true .FuncRef) (.ref true (.TypeIndex 0)) = true ∧
      matchType c5Ts 1 (.ref false .FuncRef) (.ref true (.TypeIndex 0)) = false ∧
      matchType c5Ts 1 (.num .I32) (.num .I32) = true := by
  refine ⟨?_, ?_, ?_, ?_⟩
  · rw [(C5_matchType c5Ts).2.2.1 0 true true 0 0 (Or.inl rfl) (by decide) (by decide)]
    decide
  · exact (C5_matchType c5Ts).2.1 0 true true 0 (Or.inl rfl)
  · exact (C5_matchType c5Ts).1 1 .FuncRef (.TypeIndex 0)
  · rw [(C5_matchType c5Ts).2.2.2 0 .I32 .I32]
    decide

/-- shuffleMask is a 128-bit constant. -/
theorem shuffleMask_lt : shuffleMask < 2 ^ 128 := by decide

/-- Bits of shuffleMask within its width: bit i is set exactly when i mod 8
is at least 5 (the 0xE0 pattern in each byte). -/
theorem shuffleMask_testBit : ∀ i, i < 128 → Nat.testBit shuffleMask i = decide (5 ≤ i % 8) := by
  decide

/-- A nonzero natural number has a set bit. -/
theorem exists_testBit_of_ne_zero {x : Nat} (hx : x ≠ 0) : ∃ i, Nat.testBit x i = true := by
  by_contra h
  push_neg at h
  refine hx (Nat.eq_of_testBit_eq fun i => ?_)
  rw [Nat.zero_testBit]
  exact Bool.eq_false_iff.mpr (h i)

/-- The masking test of the shuffle rule is exactly the lane-byte bound: for
a 128-bit immediate, the bitwise AND with shuffleMask is nonzero precisely
when some of the sixteen lane bytes is at least 32. -/
theorem shuffleMask_land_ne_zero (n : Nat) (_hn : n < 2 ^ 128) :
    n &&& shuffleMask ≠ 0 ↔ ∃ k, k < 16 ∧ 32 ≤ n / 2 ^ (8 * k) % 256 := by
  constructor
  · intro h
    obtain ⟨b, hb⟩ := exists_testBit_of_ne_zero h
    rw [Nat.testBit_land, Bool.and_eq_true] at hb
    obtain ⟨hbn, hbm⟩ := hb
    have hb128 : b < 128 := by
      by_contra hge
      push_neg at hge
      have hfalse : Nat.testBit shuffleMask b = false :=
        Nat.testBit_lt_two_pow
          (lt_of_lt_of_le shuffleMask_lt (Nat.pow_le_pow_right (by norm_num) hge))
      rw [hfalse] at hbm
      exact Bool.false_ne_true hbm
    have hr : 5 ≤ b % 8 := by
      have hbit := shuffleMask_testBit b hb128
      rw [hbm] at hbit
      exact of_decide_eq_true hbit.symm
    refine ⟨b / 8, by omega, ?_⟩
    have hdm : n / 2 ^ b % 2 = 1 := by
      rw [Nat.testBit_to_div_mod] at hbn
      exact of_decide_eq_true hbn
    have hb8 : 8 * (b / 8) + b % 8 = b := by omega
    have hsplit : n / 2 ^ b = n / 2 ^ (8 * (b / 8)) / 2 ^ (b % 8) := by
      rw [Nat.div_div_eq_div_mul, ← pow_add, hb8]
    rw [hsplit] at hdm
    have hcase : b % 8 = 5 ∨ b % 8 = 6 ∨ b % 8 = 7 := by omega
    rcases hcase with h5 | h6 | h7
    · rw [h5] at hdm; norm_num at hdm; omega
    · rw [h6] at hdm; norm_num at hdm; omega
    · rw [h7] at hdm; norm_num at hdm; omega
  · rintro ⟨k, hk, hB⟩ h0
    have hmlt : n / 2 ^ (8 * k) % 256 < 256 := Nat.mod_lt _ (by norm_num)
    have hrsel : n / 2 ^ (8 * k) % 256 / 32 % 2 = 1 ∨
        n / 2 ^ (8 * k) % 256 / 64 % 2 = 1 ∨
        n / 2 ^ (8 * k) % 256 / 128 % 2 = 1 := by omega
    obtain ⟨r, hr5, hr8, hrbit⟩ :
        ∃ r, 5 ≤ r ∧ r < 8 ∧ n / 2 ^ (8 * k) / 2 ^ r % 2 = 1 := by
      rcases hrsel with h | h | h
      · exact ⟨5, by omega, by omega, by norm_num; omega⟩
      · exact ⟨6, by omega, by omega, by norm_num; omega⟩
      · exact ⟨7, by omega, by omega, by norm_num; omega⟩
    have hXbit : n / 2 ^ (8 * k + r) % 2 = 1 := by
      rw [pow_add, ← Nat.div_div_eq_div_mul]
      exact hrbit
    have htm : Nat.testBit shuffleMask (8 * k + r) = true := by
      rw [shuffleMask_testBit _ (by omega)]
      simp only [decide_eq_true_eq]
      omega
    have htn : Nat.testBit n (8 * k + r) = true := by
      rw [Nat.testBit_to_div_mod]
      exact decide_eq_true hXbit
    have hland : Nat.testBit (n &&& shuffleMask) (8 * k + r) = true := by
      rw [Nat.testBit_land, htn, htm]
      rfl
    rw [h0, Nat.zero_testBit] at hland
    exact Bool.false_ne_true hland

/-- Claim C9 (confirmed): i8x16.shuffle fails with InvalidLaneIdx exactly
when the bitwise AND of its 128-bit immediate with the all-0xE0 byte mask is
nonzero, which for a 128-bit immediate happens exactly when some lane byte is
at least 32; when the mask test passes, the instruction is the plain stack
transformation taking two v128 operands and producing one. -/
theorem C9_shuffle (st : FormChecker) (i : Nat)
    (hop : (st.Instrs.getD i default).op = .I8x16__shuffle)
    (hnum : (st.Instrs.getD i default).num < 2 ^ 128) :
    ((checkInstr i st).1 = .error .InvalidLaneIdx ↔
      (st.Instrs.getD i default).num &&& shuffleMask ≠ 0) ∧
    ((st.Instrs.getD i default).num &&& shuffleMask ≠ 0 ↔
      ∃ k, k < 16 ∧ 32 ≤ (st.Instrs.getD i default).num / 2 ^ (8 * k) % 256) ∧
    ((st.Instrs.getD i default).num &&& shuffleMask = 0 →
      checkInstr i st = StackTrans [.num .V128, .num .V128] [.num .V128] st) := by
  have hzero : ∀ h0 : (st.Instrs.getD i default).num &&& shuffleMask = 0,
      checkInstr i st = StackTrans [.num .V128, .num .V128] [.num .V128] st := by
    intro h0
    simp only [checkInstr]
    rw [hop]
    dsimp only
    rw [if_neg (not_not_intro h0)]
  refine ⟨?_, shuffleMask_land_ne_zero _ hnum, hzero⟩
  constructor
  · intro hres
    intro h0
    rw [hzero h0] at hres
    rcases StackTrans_first [.num .V128, .num .V128] [.num .V128] st with h | h <;>
      rw [h] at hres <;> simp at hres
  · intro hne
    simp only [checkInstr]
    rw [hop]
    dsimp only
    rw [if_pos hne]

/-- Claim C9 (witness): a shuffle immediate with every lane byte 31 or below
is not rejected for its lanes, while the immediate 32 (lane byte 32 in lane
zero) is rejected with InvalidLaneIdx. -/
theorem C9_witness :
    (checkInstr 0 c9StB).1 = .error .InvalidLaneIdx ∧
      (checkInstr 0 c9StA).1 ≠ .error .InvalidLaneIdx := by
  constructor
  · exact (C9_shuffle c9StB 0 rfl (by decide)).1.mpr (by decide)
  · intro hres
    exact absurd ((C9_shuffle c9StA 0 rfl (by decide)).1.mp hres) (by decide)

end WasmEdgeFC
